import Mathlib

/-
Verification of the Elasticsearch helper module
(mindmeld/components/_elasticsearch_helpers.py).

The module is embedded shallowly:

* Python dicts are association lists (insertion-ordered, as in CPython);
  dict item assignment keeps the position of an existing key and appends a
  fresh key at the end; dict.pop removes the key and returns its value.
* The Elasticsearch client is an oracle record fixing the outcome of every
  engine call issued by one operation (health check, existence query,
  template registration, index creation/deletion, bulk stream, refresh).
* Each helper returns the list of engine calls it issued together with an
  Except value: Except.error models a raised Python exception, Except.ok a
  normal return.
* For the claims about object identity and in-place mutation a second,
  heap-level embedding is used: a store of dicts addressed by naturals, so
  that aliasing (including the self-referential dict built by
  create_index_mapping) is representable.
-/

namespace MindmeldES

/-! ## Association-list model of Python dicts -/

/-- Key lookup in an insertion-ordered dict (Python `d.get(k)` / `d[k]`). -/
def aGet {α : Type} : List (String × α) → String → Option α
  | [], _ => none
  | (k', v) :: rest, k => if k' = k then some v else aGet rest k

/-- Item assignment `d[k] = v`: replace in place if the key exists,
append at the end otherwise (CPython insertion-order semantics). -/
def aSet {α : Type} : List (String × α) → String → α → List (String × α)
  | [], k, v => [(k, v)]
  | (k', v') :: rest, k, v =>
    if k' = k then (k, v) :: rest else (k', v') :: aSet rest k v

/-- `d.pop(k)` without default: remove the key and return its value,
or `none` (Python raises KeyError) when the key is missing. -/
def aPop {α : Type} : List (String × α) → String → Option (α × List (String × α))
  | [], _ => none
  | (k', v') :: rest, k =>
    if k' = k then some (v', rest)
    else
      match aPop rest k with
      | none => none
      | some (v, rest') => some (v, (k', v') :: rest')

/-- Whether the first character list starts the second one. -/
def charsMatchAt : List Char → List Char → Bool
  | [], _ => true
  | _ :: _, [] => false
  | a :: as, b :: bs => decide (a = b) && charsMatchAt as bs

/-- Substring containment on character lists. -/
def strContainsChars (needle : List Char) : List Char → Bool
  | [] => charsMatchAt needle []
  | h :: t => charsMatchAt needle (h :: t) || strContainsChars needle t

/-- `needle in hay` for Python strings: substring containment. -/
def strContains (needle hay : String) : Bool :=
  strContainsChars needle.toList hay.toList

/-! ## Value-level model of Python data (no aliasing) -/

/-- A Python value as stored in a mapping/template document. -/
inductive PyVal where
  | dict : List (String × PyVal) → PyVal
  | str : String → PyVal
  | num : Nat → PyVal

/-- A Python dict of `PyVal`s. -/
abbrev PyDict := List (String × PyVal)

/-! ## Errors raised by the module -/

/-- An exception raised by the elasticsearch client library:
`ConnectionError` (including timeouts), `TransportError` with a status
code, or any other `ElasticsearchException`.  The module's `except`
clauses match them in this order. -/
inductive EsErr where
  | connError
  | transportError (statusCode : Nat)
  | otherError
deriving DecidableEq, Repr

/-- An exception propagating out of a helper of this module:
the knowledge-base errors it raises itself, plus the builtin Python
exceptions (`ValueError`, `KeyError`, `TypeError`) that escape uncaught. -/
inductive MMError where
  | kbConnectionError (hosts : List String)
  | kbError (detail : Option String)
  | valueError (msg : String)
  | keyError (key : String)
  | typeError
deriving DecidableEq, Repr

/-! ## Source constants and pure helpers -/

/-- `DOC_TYPE = "document"` (module constant). -/
def DOC_TYPE : String := "document"

/-- Modelled from the spec: the fixed well-known template name
`DEFAULT_ES_INDEX_TEMPLATE_NAME` lives in `_config.py`, which is not part
of the sources at hand; only its role (a fixed name) matters here. -/
def DEFAULT_ES_INDEX_TEMPLATE_NAME : String := "mindmeld_default"

/-- `get_scoped_index_name(app_namespace, index_name)`:
`"{}${}".format(app_namespace, index_name)`. -/
def get_scoped_index_name (appNamespace indexName : String) : String :=
  appNamespace ++ "$" ++ indexName

/-- The two observable outcomes of `is_es_version_7(es_client)`:
the boolean it returns and whether it logged the compatibility warning. -/
structure VersionCheck where
  modern : Bool
  warned : Bool
deriving DecidableEq, Repr

/-- `is_es_version_7`: parses the major version from the info query
(here supplied directly), warns when it is below 5, and returns
`major_version >= 7`. -/
def is_es_version_7 (majorVersion : Nat) : VersionCheck :=
  { warned := decide (majorVersion < 5), modern := decide (7 ≤ majorVersion) }

/-- `DOC_TYPE not in config.get("mappings", {})`, negated: Python `in`
on a dict checks key membership, on a string checks substring
containment, and on a number raises TypeError. -/
def pyContainsKey (k : String) (v : PyVal) : Except MMError Bool :=
  match v with
  | .dict d => .ok (d.any fun p => decide (p.1 = k))
  | .str s => .ok (strContains k s)
  | .num _ => .error .typeError

/-- `resolve_es_config_for_version(config, es_client)` at the level of
dict values; `modern` is `is_es_version_7(es_client)`.  For a modern
engine the config is returned unchanged; otherwise, when `DOC_TYPE` is
not in `config.get("mappings", {})`, the `mappings` value is popped and
re-inserted nested under `DOC_TYPE` (KeyError when the key is absent,
exactly as `config.pop("mappings")` raises). -/
def resolve_es_config_for_version (modern : Bool) (config : PyDict) :
    Except MMError PyDict :=
  if modern then .ok config
  else
    match pyContainsKey DOC_TYPE ((aGet config "mappings").getD (.dict [])) with
    | .error e => .error e
    | .ok true => .ok config
    | .ok false =>
      match aPop config "mappings" with
      | none => .error (.keyError "mappings")
      | some (v, rest) => .ok (aSet rest "mappings" (.dict [(DOC_TYPE, v)]))

/-- Modelled from the spec: a mapping is in flat (MODERN) shape when its
field properties are not nested under the legacy document-type key. -/
def isFlatMapping (m : PyDict) : Bool :=
  match aGet m "mappings" with
  | some (.dict d) => !(d.any fun p => decide (p.1 = DOC_TYPE))
  | some _ => true
  | none => true

/-! ## Engine-call oracle and effect traces -/

/-- One engine call issued by a helper. -/
inductive EsEffect where
  | healthCheck
  | existsQuery (scopedName : String)
  | putTemplate (templateName : String)
  | createIdx (scopedName : String)
  | deleteIdx (scopedName : String)
  | bulkSubmit (index : String) (docType : Option String) (chunkSize : Nat)
  | refresh (scopedName : String)
deriving DecidableEq, Repr

/-- One per-document outcome yielded by `streaming_bulk`: the success
flag, the action key of the result envelope (from `result.popitem()`),
and the assigned document id (`result["_id"]`). -/
structure BulkItem where
  okay : Bool
  action : String
  docId : String
deriving DecidableEq, Repr

/-- The Elasticsearch client as a deterministic oracle: the host list,
the reported major version, and the outcome of each kind of engine call.
The bulk stream is modelled as the per-document outcomes it yields,
optionally followed by a systemic exception raised mid-iteration. -/
structure EsClient where
  hosts : List String
  majorVersion : Nat
  healthResult : Except EsErr Unit
  existsResult : Except EsErr Bool
  putTemplateResult : Except EsErr Unit
  createIndexResult : Except EsErr Unit
  deleteIndexResult : Except EsErr Unit
  refreshResult : Except EsErr Unit
  bulkItems : List BulkItem
  bulkTerminal : Option EsErr

/-! ## does_index_exist -/

/-- `does_index_exist`: short-timeout cluster health check, then the
existence query; `ConnectionError` is translated to
`KnowledgeBaseConnectionError(es_host=es_client.transport.hosts)`,
`TransportError` and any other `ElasticsearchException` to
`KnowledgeBaseError`.  Returns the engine calls issued and the
result. -/
def does_index_exist (c : EsClient) (appNamespace indexName : String) :
    List EsEffect × Except MMError Bool :=
  let scopedName := get_scoped_index_name appNamespace indexName
  match c.healthResult with
  | .error .connError => ([.healthCheck], .error (.kbConnectionError c.hosts))
  | .error (.transportError _) => ([.healthCheck], .error (.kbError none))
  | .error .otherError => ([.healthCheck], .error (.kbError none))
  | .ok () =>
    match c.existsResult with
    | .error .connError =>
      ([.healthCheck, .existsQuery scopedName], .error (.kbConnectionError c.hosts))
    | .error (.transportError _) =>
      ([.healthCheck, .existsQuery scopedName], .error (.kbError none))
    | .error .otherError =>
      ([.healthCheck, .existsQuery scopedName], .error (.kbError none))
    | .ok b => ([.healthCheck, .existsQuery scopedName], .ok b)

/-! ## create_index -/

/-- The message built in `create_index`'s TransportError handler
(the error body and info objects are abstracted away, the status code is
kept). -/
def transportErrorMessage (statusCode : Nat) : String :=
  "Unexpected error occurred when sending requests to Elasticsearch. Status code: "
    ++ toString statusCode

/-- `create_index`: existence check first; when the index is already
present, log and return.  When absent: adapt the default index template
for the engine generation, register it under the fixed template name,
then create the scoped index.  Errors raised by `does_index_exist` are
already knowledge-base errors and propagate unchanged (they are not
elasticsearch exceptions, so `create_index`'s own handlers do not catch
them); engine-call failures are translated by `create_index`'s own
handlers. -/
def create_index (c : EsClient) (appNamespace indexName : String)
    (template : PyDict) : List EsEffect × Except MMError Unit :=
  let scopedName := get_scoped_index_name appNamespace indexName
  let checked := does_index_exist c appNamespace indexName
  match checked.2 with
  | .error e => (checked.1, .error e)
  | .ok true => (checked.1, .ok ())
  | .ok false =>
    match resolve_es_config_for_version (is_es_version_7 c.majorVersion).modern
        template with
    | .error e => (checked.1, .error e)
    | .ok _resolvedTemplate =>
      match c.putTemplateResult with
      | .error .connError =>
        (checked.1 ++ [.putTemplate DEFAULT_ES_INDEX_TEMPLATE_NAME],
         .error (.kbConnectionError c.hosts))
      | .error (.transportError n) =>
        (checked.1 ++ [.putTemplate DEFAULT_ES_INDEX_TEMPLATE_NAME],
         .error (.kbError (some (transportErrorMessage n))))
      | .error .otherError =>
        (checked.1 ++ [.putTemplate DEFAULT_ES_INDEX_TEMPLATE_NAME],
         .error (.kbError none))
      | .ok () =>
        match c.createIndexResult with
        | .error .connError =>
          (checked.1 ++ [.putTemplate DEFAULT_ES_INDEX_TEMPLATE_NAME,
            .createIdx scopedName], .error (.kbConnectionError c.hosts))
        | .error (.transportError n) =>
          (checked.1 ++ [.putTemplate DEFAULT_ES_INDEX_TEMPLATE_NAME,
            .createIdx scopedName], .error (.kbError (some (transportErrorMessage n))))
        | .error .otherError =>
          (checked.1 ++ [.putTemplate DEFAULT_ES_INDEX_TEMPLATE_NAME,
            .createIdx scopedName], .error (.kbError none))
        | .ok () =>
          (checked.1 ++ [.putTemplate DEFAULT_ES_INDEX_TEMPLATE_NAME,
            .createIdx scopedName], .ok ())

/-! ## delete_index -/

/-- The ValueError message raised by `delete_index` on a missing
index. -/
def indexMissingMessage (appNamespace indexName : String) : String :=
  "Elasticsearch index '" ++ indexName ++ "' for application '"
    ++ appNamespace ++ "' does not exist."

/-- `delete_index`: existence check first; when present, delete the
scoped index; when absent, raise ValueError (which none of the module's
except clauses catch, so it propagates as-is). -/
def delete_index (c : EsClient) (appNamespace indexName : String) :
    List EsEffect × Except MMError Unit :=
  let scopedName := get_scoped_index_name appNamespace indexName
  let checked := does_index_exist c appNamespace indexName
  match checked.2 with
  | .error e => (checked.1, .error e)
  | .ok false =>
    (checked.1, .error (.valueError (indexMissingMessage appNamespace indexName)))
  | .ok true =>
    match c.deleteIndexResult with
    | .error .connError =>
      (checked.1 ++ [.deleteIdx scopedName], .error (.kbConnectionError c.hosts))
    | .error (.transportError _) =>
      (checked.1 ++ [.deleteIdx scopedName], .error (.kbError none))
    | .error .otherError =>
      (checked.1 ++ [.deleteIdx scopedName], .error (.kbError none))
    | .ok () => (checked.1 ++ [.deleteIdx scopedName], .ok ())

/-! ## load_index -/

/-- `"%s" % doc_type` when doc_type may be None. -/
def optionDocTypeStr : Option String → String
  | none => "None"
  | some s => s

/-- The display path computed per document: `/index/id` for a modern
engine, `/index/type/id` for a legacy one. -/
def doc_display_path (modern : Bool) (indexName : String)
    (docType : Option String) (docId : String) : String :=
  if modern then "/" ++ indexName ++ "/" ++ docId
  else "/" ++ indexName ++ "/" ++ optionDocTypeStr docType ++ "/" ++ docId

/-- The per-document loop body of `load_index` over the outcomes yielded
by the bulk stream: failures are logged (action and display path) and
skipped, successes increment the counter; every document advances the
stream.  Returns the final counter and the failure log entries in stream
order. -/
def processBulkResults (modern : Bool) (indexName : String)
    (docType : Option String) : List BulkItem → Nat × List (String × String)
  | [] => (0, [])
  | item :: rest =>
    let tail := processBulkResults modern indexName docType rest
    if item.okay then (tail.1 + 1, tail.2)
    else (tail.1,
      (item.action, doc_display_path modern indexName docType item.docId)
        :: tail.2)

/-- The number of documents the bulk stream reported successfully
indexed. -/
def countSuccessful (items : List BulkItem) : Nat :=
  (items.filter fun i => i.okay).length

/-- The error translation of `load_index`'s except clauses. -/
def translateLoadErr (e : EsErr) (hosts : List String) : MMError :=
  match e with
  | .connError => .kbConnectionError hosts
  | .transportError _ => .kbError none
  | .otherError => .kbError none

/-- The observable summary of a completed load: the success counter that
`load_index` accumulates and logs, the attempted count it was given for
progress accounting, and the failure log entries it emitted. -/
structure LoadResult where
  succeeded : Nat
  attempted : Nat
  failureLogs : List (String × String)
deriving DecidableEq, Repr

/-- `load_index`: existence check (creating the index when absent),
then one streaming bulk pass in chunks of 50 — submitted without a
document type on a modern engine and with the module constant `DOC_TYPE`
on a legacy one — counting successes and logging failures per document,
then an index refresh.  A systemic exception raised by the stream or the
refresh is translated by the surrounding except clauses; per-document
failures never raise. -/
def load_index (c : EsClient) (appNamespace indexName : String)
    (docsCount : Nat) (template : PyDict) (docType : Option String) :
    List EsEffect × Except MMError LoadResult :=
  let scopedName := get_scoped_index_name appNamespace indexName
  let checked := does_index_exist c appNamespace indexName
  match checked.2 with
  | .error e => (checked.1, .error e)
  | .ok idxExists =>
    let created :=
      if idxExists then (([] : List EsEffect), Except.ok ())
      else create_index c appNamespace indexName template
    match created.2 with
    | .error e => (checked.1 ++ created.1, .error e)
    | .ok () =>
      let modern := (is_es_version_7 c.majorVersion).modern
      let bulkEff :=
        EsEffect.bulkSubmit scopedName (if modern then none else some DOC_TYPE) 50
      let processed := processBulkResults modern indexName docType c.bulkItems
      match c.bulkTerminal with
      | some e =>
        (checked.1 ++ created.1 ++ [bulkEff],
         .error (translateLoadErr e c.hosts))
      | none =>
        match c.refreshResult with
        | .error e =>
          (checked.1 ++ created.1 ++ [bulkEff, .refresh scopedName],
           .error (translateLoadErr e c.hosts))
        | .ok () =>
          (checked.1 ++ created.1 ++ [bulkEff, .refresh scopedName],
           .ok { succeeded := processed.1, attempted := docsCount,
                 failureLogs := processed.2 })

/-! ## Heap-level model of Python dicts (aliasing and in-place mutation)

Python dict objects live in a store and are passed by reference; a value
inside a dict is either a reference to another dict object or an
immutable leaf.  This representation makes in-place mutation, sharing
and even the self-referential dict built by `create_index_mapping`
expressible. -/

/-- A value held in a dict slot: a reference to another dict object in
the store, or an immutable leaf. -/
inductive HVal where
  | ref : Nat → HVal
  | str : String → HVal
  | num : Nat → HVal
deriving DecidableEq, Repr

/-- A dict object: an insertion-ordered association list. -/
abbrev HDict := List (String × HVal)

/-- The object store; addresses are list positions, allocation appends. -/
abbrev Store := List HDict

/-- Dereference an address (an address outside the store reads as the
empty dict; well-formed runs never do that). -/
def fetch : Store → Nat → HDict
  | [], _ => []
  | d :: _, 0 => d
  | _ :: s, n + 1 => fetch s n

/-- Overwrite the dict object at an address (no-op outside the store). -/
def updateAt : Store → Nat → HDict → Store
  | [], _, _ => []
  | _ :: s, 0, d => d :: s
  | e :: s, n + 1, d => e :: updateAt s n d

/-- The dict literal built per embedding entry:
type dense_vector with the given dimensionality. -/
def embDictFor (dims : Nat) : HDict :=
  [("type", HVal.str "dense_vector"), ("dims", HVal.num dims)]

/-- The loop of `create_index_mapping`:
`properties[emb["field"]] = {"type": "dense_vector", "dims": emb["dims"]}`
for each entry.  Every iteration allocates the fresh literal and mutates
the properties object in place; item assignment on a non-dict value
raises TypeError. -/
def insertEmbeddings (s : Store) (propVal : HVal) :
    List (String × Nat) → Except MMError Store
  | [] => .ok s
  | (f, d) :: rest =>
    match propVal with
    | .ref p =>
      let s1 := s ++ [embDictFor d]
      insertEmbeddings (updateAt s1 p (aSet (fetch s1 p) f (.ref s.length)))
        (.ref p) rest
    | _ => .error .typeError

/-- The store produced by `insertEmbeddings` when the properties value
is a dict reference (that case never fails); used to state what the loop
does. -/
def embStore (s : Store) (p : Nat) : List (String × Nat) → Store
  | [] => s
  | (f, d) :: rest =>
    let s1 := s ++ [embDictFor d]
    embStore (updateAt s1 p (aSet (fetch s1 p) f (.ref s.length))) p rest

/-- `create_index_mapping(base_mapping, mapping_data)` on the heap,
`embeddingProperties` being the (field, dims) pairs of
`mapping_data.get("embedding_properties", [])`:

1. `properties = base_mapping.get("mappings", {}).get("properties", {})`
   — each missing level yields a fresh empty dict (`.get` on a leaf
   raises, modelled as TypeError);
2. the embedding loop mutates that properties object;
3. `if "mappings" not in base_mapping: base_mapping["mappings"] =
   base_mapping` — the dict is made to refer to itself;
4. `base_mapping["mappings"]["properties"] = properties`;
5. the very same `base_mapping` object is returned. -/
def create_index_mapping (s : Store) (base : Nat)
    (embeddingProperties : List (String × Nat)) :
    Except MMError (Store × Nat) :=
  let step1 : Except MMError (Store × HVal) :=
    match aGet (fetch s base) "mappings" with
    | some (.ref m) =>
      match aGet (fetch s m) "properties" with
      | some v => .ok (s, v)
      | none => .ok (s ++ [[]], .ref s.length)
    | some _ => .error .typeError
    | none => .ok ((s ++ [[]]) ++ [[]], .ref (s.length + 1))
  match step1 with
  | .error e => .error e
  | .ok (s2, propVal) =>
    match insertEmbeddings s2 propVal embeddingProperties with
    | .error e => .error e
    | .ok s3 =>
      let s4 :=
        if (aGet (fetch s3 base) "mappings").isSome then s3
        else updateAt s3 base (aSet (fetch s3 base) "mappings" (.ref base))
      match aGet (fetch s4 base) "mappings" with
      | some (.ref m2) =>
        .ok (updateAt s4 m2 (aSet (fetch s4 m2) "properties" propVal), base)
      | some _ => .error .typeError
      | none => .error (.keyError "mappings")

/-- `resolve_es_config_for_version` on the heap: the config dict is
mutated in place (pop the `mappings` key, allocate the nesting dict,
re-insert) and its own address is returned. -/
def resolve_es_config_for_version_heap (s : Store) (config : Nat)
    (modern : Bool) : Except MMError (Store × Nat) :=
  if modern then .ok (s, config)
  else
    let containsCheck : Except MMError Bool :=
      match aGet (fetch s config) "mappings" with
      | some (.ref m) => .ok ((fetch s m).any fun p => decide (p.1 = DOC_TYPE))
      | some (.str txt) => .ok (strContains DOC_TYPE txt)
      | some (.num _) => .error .typeError
      | none => .ok false
    match containsCheck with
    | .error e => .error e
    | .ok true => .ok (s, config)
    | .ok false =>
      match aPop (fetch s config) "mappings" with
      | none => .error (.keyError "mappings")
      | some (v, rest) =>
        let s1 := updateAt s config rest
        let s2 := s1 ++ [[(DOC_TYPE, v)]]
        .ok (updateAt s2 config (aSet (fetch s2 config) "mappings"
          (.ref s1.length)), config)

/-- The store-relevant part of `create_index` on the heap: when the
existence check reports the index absent, the module-global
`DEFAULT_ES_INDEX_TEMPLATE` object (here: the dict at `templateAddr`) is
passed to `resolve_es_config_for_version`, which mutates it in place;
template registration and index creation are engine calls that leave the
store untouched. -/
def create_index_heap (s : Store) (templateAddr : Nat) (modern : Bool)
    (indexExists : Bool) : Except MMError Store :=
  if indexExists then .ok s
  else
    match resolve_es_config_for_version_heap s templateAddr modern with
    | .error e => .error e
    | .ok (s1, _sameTemplateAddr) => .ok s1

/-- The store `create_index_mapping` produces when the base mapping has
no `mappings` key: the two chained `.get` defaults allocate fresh dicts
(the properties object ends at address `s.length + 1`), the embedding
loop fills it, the base dict gains `mappings` as a reference to itself,
and the final item assignment through that self-reference overwrites the
base dict's own top-level `properties` slot. -/
def cimAbsentStore (s : Store) (base : Nat)
    (l : List (String × Nat)) : Store :=
  let s2 := (s ++ [[]]) ++ [[]]
  let p := s.length + 1
  let s3 := embStore s2 p l
  let s4 := updateAt s3 base (aSet (fetch s3 base) "mappings" (.ref base))
  updateAt s4 base (aSet (fetch s4 base) "properties" (.ref p))

/-- The store `create_index_mapping` produces when the base mapping has
a `mappings` dict that lacks `properties`: a fresh properties dict is
allocated at `s.length`, filled by the loop, and hung under the mappings
dict. -/
def cimNoPropsStore (s : Store) (m : Nat)
    (l : List (String × Nat)) : Store :=
  let s2 := s ++ [[]]
  let p := s.length
  let s3 := embStore s2 p l
  updateAt s3 m (aSet (fetch s3 m) "properties" (.ref p))

/-- The store left behind by the in-place template adaptation: the
`mappings` value of the dict at `t` (previously a reference to the dict
at `m`, with remaining entries `rest`) is re-pointed at a freshly
allocated nesting dict. -/
def resolvedTemplateStore (s : Store) (t m : Nat) (rest : HDict) : Store :=
  updateAt (updateAt s t rest ++ [[(DOC_TYPE, HVal.ref m)]]) t
    (aSet rest "mappings" (HVal.ref s.length))

/-! ## Concrete fixtures used by the witnesses and counterexamples -/

/-- A healthy modern-generation client whose bulk stream yields three
documents, the second of which fails. -/
def loadOkClient : EsClient :=
  { hosts := ["localhost"], majorVersion := 7, healthResult := .ok (),
    existsResult := .ok true, putTemplateResult := .ok (),
    createIndexResult := .ok (), deleteIndexResult := .ok (),
    refreshResult := .ok (),
    bulkItems := [{ okay := true, action := "index", docId := "1" },
                  { okay := false, action := "index", docId := "2" },
                  { okay := true, action := "index", docId := "3" }],
    bulkTerminal := none }

/-- A healthy legacy-generation (major version 6) client. -/
def legacyLoadClient : EsClient :=
  { hosts := ["localhost"], majorVersion := 6, healthResult := .ok (),
    existsResult := .ok true, putTemplateResult := .ok (),
    createIndexResult := .ok (), deleteIndexResult := .ok (),
    refreshResult := .ok (), bulkItems := [], bulkTerminal := none }

/-- A healthy modern client with one failing document in the stream. -/
def mixedStreamClient : EsClient :=
  { hosts := ["es1"], majorVersion := 7, healthResult := .ok (),
    existsResult := .ok true, putTemplateResult := .ok (),
    createIndexResult := .ok (), deleteIndexResult := .ok (),
    refreshResult := .ok (),
    bulkItems := [{ okay := false, action := "index", docId := "a" },
                  { okay := true, action := "index", docId := "b" }],
    bulkTerminal := none }

/-- A client whose bulk stream raises a connection error mid-iteration. -/
def streamDownClient : EsClient :=
  { hosts := ["es1"], majorVersion := 7, healthResult := .ok (),
    existsResult := .ok true, putTemplateResult := .ok (),
    createIndexResult := .ok (), deleteIndexResult := .ok (),
    refreshResult := .ok (),
    bulkItems := [{ okay := true, action := "index", docId := "a" }],
    bulkTerminal := some .connError }

/-- A healthy client that reports the index present. -/
def presentIndexClient : EsClient :=
  { hosts := ["es1"], majorVersion := 7, healthResult := .ok (),
    existsResult := .ok true, putTemplateResult := .ok (),
    createIndexResult := .ok (), deleteIndexResult := .ok (),
    refreshResult := .ok (), bulkItems := [], bulkTerminal := none }

/-- A healthy client that reports the index absent. -/
def absentIndexClient : EsClient :=
  { hosts := ["es1"], majorVersion := 7, healthResult := .ok (),
    existsResult := .ok false, putTemplateResult := .ok (),
    createIndexResult := .ok (), deleteIndexResult := .ok (),
    refreshResult := .ok (), bulkItems := [], bulkTerminal := none }

/-- A client whose health check fails with a connection error. -/
def unreachableClient : EsClient :=
  { hosts := ["host-a", "host-b"], majorVersion := 7,
    healthResult := .error .connError, existsResult := .ok false,
    putTemplateResult := .ok (), createIndexResult := .ok (),
    deleteIndexResult := .ok (), refreshResult := .ok (),
    bulkItems := [], bulkTerminal := none }

/-- A base mapping lacking `mappings` but owning a top-level
`properties` key (heap form: one dict at address 0). -/
def clobberBase : Store := [[("properties", HVal.str "X")]]

/-- A two-object store: the template dict at address 0 refers to its
mappings dict at address 1. -/
def templateStore : Store :=
  [[("mappings", HVal.ref 1)], [("settings", HVal.num 1)]]

/-! ## Lemmas about the dict and store primitives -/

theorem aGet_aSet_self {α : Type} (d : List (String × α)) (k : String) (v : α) :
    aGet (aSet d k v) k = some v := by
  induction d with
  | nil => simp [aSet, aGet]
  | cons hd tl ih =>
    obtain ⟨k', v'⟩ := hd
    by_cases h : k' = k
    · subst h
      simp [aSet, aGet]
    · simp [aSet, aGet, h, ih]

theorem aGet_aSet_ne {α : Type} (d : List (String × α)) (k k' : String)
    (v : α) (h : k' ≠ k) : aGet (aSet d k v) k' = aGet d k' := by
  induction d with
  | nil =>
    simp [aSet, aGet]
    exact fun hk => absurd hk.symm h
  | cons hd tl ih =>
    obtain ⟨k₀, v₀⟩ := hd
    by_cases h0 : k₀ = k
    · subst h0
      have hne : ¬(k₀ = k') := fun hk => h hk.symm
      simp [aSet, aGet, hne]
    · by_cases h1 : k₀ = k'
      · subst h1
        simp [aSet, aGet, h0]
      · simp [aSet, aGet, h0, h1, ih]

theorem aSet_self_of_aGet {α : Type} (d : List (String × α)) (k : String)
    (v : α) (h : aGet d k = some v) : aSet d k v = d := by
  induction d with
  | nil => simp [aGet] at h
  | cons hd tl ih =>
    obtain ⟨k', v'⟩ := hd
    by_cases h0 : k' = k
    · subst h0
      simp [aGet] at h
      simp [aSet, h]
    · simp [aGet, h0] at h
      simp [aSet, h0, ih h]

theorem aPop_eq_none {α : Type} (d : List (String × α)) (k : String)
    (h : aGet d k = none) : aPop d k = none := by
  induction d with
  | nil => simp [aPop]
  | cons hd tl ih =>
    obtain ⟨k', v'⟩ := hd
    by_cases h0 : k' = k
    · subst h0
      simp [aGet] at h
    · simp [aGet, h0] at h
      simp [aPop, h0, ih h]

theorem aPop_eq_some {α : Type} (d : List (String × α)) (k : String)
    (v : α) (h : aGet d k = some v) :
    ∃ rest, aPop d k = some (v, rest) := by
  induction d with
  | nil => simp [aGet] at h
  | cons hd tl ih =>
    obtain ⟨k', v'⟩ := hd
    by_cases h0 : k' = k
    · subst h0
      simp [aGet] at h
      subst h
      exact ⟨tl, by simp [aPop]⟩
    · simp [aGet, h0] at h
      obtain ⟨rest, hrest⟩ := ih h
      exact ⟨(k', v') :: rest, by simp [aPop, h0, hrest]⟩

theorem aGet_of_aPop {α : Type} (d : List (String × α)) (k : String)
    (v : α) (rest : List (String × α)) (h : aPop d k = some (v, rest)) :
    aGet d k = some v := by
  induction d generalizing rest with
  | nil => simp [aPop] at h
  | cons hd tl ih =>
    obtain ⟨k', v'⟩ := hd
    by_cases h0 : k' = k
    · subst h0
      simp [aPop] at h
      simp [aGet, h.1]
    · simp [aPop, h0] at h
      match htl : aPop tl k with
      | none => rw [htl] at h; simp at h
      | some (v₀, rest₀) =>
        rw [htl] at h
        simp at h
        simp [aGet, h0]
        rw [h.1] at htl
        exact ih rest₀ htl

theorem updateAt_length (s : Store) (a : Nat) (d : HDict) :
    (updateAt s a d).length = s.length := by
  induction s generalizing a with
  | nil => simp [updateAt]
  | cons hd tl ih =>
    cases a with
    | zero => simp [updateAt]
    | succ n => simp [updateAt, ih]

theorem fetch_updateAt_self (s : Store) (a : Nat) (d : HDict)
    (h : a < s.length) : fetch (updateAt s a d) a = d := by
  induction s generalizing a with
  | nil => simp at h
  | cons hd tl ih =>
    cases a with
    | zero => simp [updateAt, fetch]
    | succ n =>
      simp at h
      simp [updateAt, fetch, ih n (by omega)]

theorem fetch_updateAt_ne (s : Store) (a b : Nat) (d : HDict)
    (h : a ≠ b) : fetch (updateAt s a d) b = fetch s b := by
  induction s generalizing a b with
  | nil => simp [updateAt]
  | cons hd tl ih =>
    cases a with
    | zero =>
      cases b with
      | zero => exact absurd rfl h
      | succ m => simp [updateAt, fetch]
    | succ n =>
      cases b with
      | zero => simp [updateAt, fetch]
      | succ m => simp [updateAt, fetch, ih n m (by omega)]

theorem updateAt_eq_self (s : Store) (a : Nat) :
    updateAt s a (fetch s a) = s := by
  induction s generalizing a with
  | nil => simp [updateAt]
  | cons hd tl ih =>
    cases a with
    | zero => simp [updateAt, fetch]
    | succ n => simp [updateAt, fetch, ih]

theorem fetch_append_lt (s : Store) (d : HDict) (b : Nat)
    (h : b < s.length) : fetch (s ++ [d]) b = fetch s b := by
  induction s generalizing b with
  | nil => simp at h
  | cons hd tl ih =>
    cases b with
    | zero => simp [fetch]
    | succ n =>
      simp at h
      simpa [fetch] using ih n (by omega)

theorem fetch_append_self (s : Store) (d : HDict) :
    fetch (s ++ [d]) s.length = d := by
  induction s with
  | nil => simp [fetch]
  | cons hd tl ih => simpa [fetch] using ih

/-! ## Lemmas about the embedding-insertion loop -/

theorem insertEmbeddings_ref (l : List (String × Nat)) (s : Store) (p : Nat) :
    insertEmbeddings s (.ref p) l = .ok (embStore s p l) := by
  induction l generalizing s with
  | nil => rfl
  | cons hd tl ih =>
    obtain ⟨f, d⟩ := hd
    simp [insertEmbeddings, embStore, ih]

theorem embStore_length (l : List (String × Nat)) (s : Store) (p : Nat) :
    (embStore s p l).length = s.length + l.length := by
  induction l generalizing s with
  | nil => simp [embStore]
  | cons hd tl ih =>
    obtain ⟨f, d⟩ := hd
    simp [embStore, ih, updateAt_length]
    omega

theorem embStore_fetch_other (l : List (String × Nat)) (s : Store)
    (p a : Nat) (ha : a < s.length) (hap : a ≠ p) :
    fetch (embStore s p l) a = fetch s a := by
  induction l generalizing s with
  | nil => simp [embStore]
  | cons hd tl ih =>
    obtain ⟨f, d⟩ := hd
    have hlen : a < (updateAt (s ++ [embDictFor d]) p
        (aSet (fetch (s ++ [embDictFor d]) p) f (.ref s.length))).length := by
      rw [updateAt_length]
      simp
      omega
    calc fetch (embStore s p ((f, d) :: tl)) a
        = fetch (updateAt (s ++ [embDictFor d]) p
            (aSet (fetch (s ++ [embDictFor d]) p) f (.ref s.length))) a := by
          rw [embStore]
          exact ih _ hlen
      _ = fetch (s ++ [embDictFor d]) a :=
          fetch_updateAt_ne _ _ _ _ (fun hpa => hap hpa.symm)
      _ = fetch s a := fetch_append_lt s _ a ha

theorem embStore_get_other (l : List (String × Nat)) (s : Store)
    (p : Nat) (f : String) (hp : p < s.length) (hf : f ∉ l.map Prod.fst) :
    aGet (fetch (embStore s p l) p) f = aGet (fetch s p) f := by
  induction l generalizing s with
  | nil => simp [embStore]
  | cons hd tl ih =>
    obtain ⟨g, d⟩ := hd
    rw [List.map_cons, List.mem_cons, not_or] at hf
    have hfg : f ≠ g := hf.1
    have hp1 : p < (s ++ [embDictFor d]).length := by simp; omega
    have hfetch : fetch (updateAt (s ++ [embDictFor d]) p
        (aSet (fetch (s ++ [embDictFor d]) p) g (.ref s.length))) p =
        aSet (fetch (s ++ [embDictFor d]) p) g (.ref s.length) :=
      fetch_updateAt_self _ _ _ hp1
    rw [embStore]
    rw [ih _ (by rw [updateAt_length]; exact hp1) hf.2]
    rw [hfetch, aGet_aSet_ne _ _ _ _ hfg, fetch_append_lt s _ p hp]

theorem embStore_get_mem (l : List (String × Nat)) (s : Store)
    (p : Nat) (f : String) (d : Nat) (hp : p < s.length)
    (hnd : (l.map Prod.fst).Nodup) (hmem : (f, d) ∈ l) :
    ∃ a, s.length ≤ a ∧
      aGet (fetch (embStore s p l) p) f = some (.ref a) ∧
      fetch (embStore s p l) a = embDictFor d := by
  induction l generalizing s with
  | nil => simp at hmem
  | cons hd tl ih =>
    obtain ⟨g, e⟩ := hd
    have hp1 : p < (s ++ [embDictFor e]).length := by simp; omega
    have hup : p < (updateAt (s ++ [embDictFor e]) p
        (aSet (fetch (s ++ [embDictFor e]) p) g (.ref s.length))).length := by
      rw [updateAt_length]; exact hp1
    rw [List.map_cons, List.nodup_cons] at hnd
    rcases List.mem_cons.mp hmem with heq | htl
    · obtain ⟨hfg, hde⟩ := Prod.mk.injEq .. ▸ heq
      subst hfg; subst hde
      refine ⟨s.length, le_refl _, ?_, ?_⟩
      · rw [embStore]
        rw [embStore_get_other tl _ p f hup hnd.1]
        rw [fetch_updateAt_self _ _ _ hp1, aGet_aSet_self]
      · rw [embStore]
        have hlt : s.length < (updateAt (s ++ [embDictFor d]) p
            (aSet (fetch (s ++ [embDictFor d]) p) f (.ref s.length))).length := by
          rw [updateAt_length]; simp
        rw [embStore_fetch_other tl _ p s.length hlt (by omega)]
        rw [fetch_updateAt_ne _ _ _ _ (by omega), fetch_append_self]
    · obtain ⟨a, ha1, ha2, ha3⟩ := ih _ hup hnd.2 htl
      refine ⟨a, ?_, ?_, ?_⟩
      · rw [updateAt_length] at ha1
        simp at ha1
        omega
      · rw [embStore]; exact ha2
      · rw [embStore]; exact ha3

/-! ## Lemmas about the bulk-processing loop -/

theorem processBulkResults_fst (m : Bool) (idx : String)
    (dt : Option String) (items : List BulkItem) :
    (processBulkResults m idx dt items).1 = countSuccessful items := by
  induction items with
  | nil => simp [processBulkResults, countSuccessful]
  | cons hd tl ih =>
    by_cases h : hd.okay
    · simp [processBulkResults, countSuccessful, List.filter_cons, h, ih]
    · simp [processBulkResults, countSuccessful, List.filter_cons, h, ih]

theorem processBulkResults_snd (m : Bool) (idx : String)
    (dt : Option String) (items : List BulkItem) :
    (processBulkResults m idx dt items).2 =
      (items.filter fun i => !i.okay).map
        fun i => (i.action, doc_display_path m idx dt i.docId) := by
  induction items with
  | nil => simp [processBulkResults]
  | cons hd tl ih =>
    by_cases h : hd.okay
    · simp [processBulkResults, List.filter_cons, h, ih]
    · simp [processBulkResults, List.filter_cons, h, ih]

/-! ## Claim C4: version resolution policy -/

/-- C4: For every engine major version v reported by the info query, the
version resolver returns MODERN (true) iff v ≥ 7; for 5 ≤ v < 7 it
returns LEGACY (false) without a warning; for v < 5 it logs a
compatibility warning but still returns LEGACY rather than failing. -/
theorem version_resolution_policy (v : Nat) :
    ((is_es_version_7 v).modern = true ↔ 7 ≤ v) ∧
    (5 ≤ v → v < 7 →
      (is_es_version_7 v).modern = false ∧ (is_es_version_7 v).warned = false) ∧
    (v < 5 →
      (is_es_version_7 v).modern = false ∧ (is_es_version_7 v).warned = true) := by
  refine ⟨?_, ?_, ?_⟩ <;> simp [is_es_version_7] <;> omega

/-- Witness for C4 at major versions 7, 5 and 3. -/
theorem version_resolution_policy_witness :
    (is_es_version_7 7).modern = true ∧
    ((is_es_version_7 5).modern = false ∧ (is_es_version_7 5).warned = false) ∧
    ((is_es_version_7 3).modern = false ∧ (is_es_version_7 3).warned = true) :=
  ⟨(version_resolution_policy 7).1.mpr (by decide),
   (version_resolution_policy 5).2.1 (by decide) (by decide),
   (version_resolution_policy 3).2.2 (by decide)⟩

/-! ## Claim C8: error translation in the existence check -/

/-- C8: For every exists call, a health-check timeout or
connection-establishment failure (ConnectionError) raises
KnowledgeBaseConnectionError carrying the attempted hosts, and no
boolean existence value is returned; any other engine-side error
(TransportError or other ElasticsearchException, on either engine call)
raises KnowledgeBaseError. -/
theorem exists_error_translation (c : EsClient) (ns idx : String) :
    (c.healthResult = .error .connError →
      (does_index_exist c ns idx).2 = .error (.kbConnectionError c.hosts)) ∧
    (∀ n, c.healthResult = .error (.transportError n) →
      (does_index_exist c ns idx).2 = .error (.kbError none)) ∧
    (c.healthResult = .error .otherError →
      (does_index_exist c ns idx).2 = .error (.kbError none)) ∧
    (c.healthResult = .ok () → c.existsResult = .error .connError →
      (does_index_exist c ns idx).2 = .error (.kbConnectionError c.hosts)) ∧
    (∀ n, c.healthResult = .ok () → c.existsResult = .error (.transportError n) →
      (does_index_exist c ns idx).2 = .error (.kbError none)) ∧
    (c.healthResult = .ok () → c.existsResult = .error .otherError →
      (does_index_exist c ns idx).2 = .error (.kbError none)) ∧
    (∀ err, (does_index_exist c ns idx).2 = .error err →
      ∀ b, (does_index_exist c ns idx).2 ≠ .ok b) := by
  refine ⟨?_, ?_, ?_, ?_, ?_, ?_, ?_⟩
  · intro hh
    simp [does_index_exist, hh]
  · intro n hh
    simp [does_index_exist, hh]
  · intro hh
    simp [does_index_exist, hh]
  · intro hh he
    simp [does_index_exist, hh, he]
  · intro n hh he
    simp [does_index_exist, hh, he]
  · intro hh he
    simp [does_index_exist, hh, he]
  · intro err herr b
    rw [herr]
    simp

/-- Witness for C8: an unreachable engine during the health check. -/
theorem exists_error_translation_witness :
    unreachableClient.healthResult = .error .connError ∧
    (does_index_exist unreachableClient "app" "kb").2 =
      .error (.kbConnectionError ["host-a", "host-b"]) :=
  ⟨rfl, (exists_error_translation unreachableClient "app" "kb").1 rfl⟩

/-! ## Claim C6: create on a present index is a no-op -/

/-- C6: For every create call where the existence check reports the
index PRESENT, no index-creation call and no template registration is
issued against the engine, and the operation returns without raising. -/
theorem create_present_is_noop (c : EsClient) (ns idx : String)
    (template : PyDict)
    (hh : c.healthResult = .ok ()) (he : c.existsResult = .ok true) :
    (create_index c ns idx template).2 = .ok () ∧
    ∀ e ∈ (create_index c ns idx template).1,
      (∀ n, e ≠ EsEffect.putTemplate n) ∧ (∀ n, e ≠ EsEffect.createIdx n) := by
  have hred : create_index c ns idx template =
      ([.healthCheck, .existsQuery (get_scoped_index_name ns idx)], .ok ()) := by
    simp [create_index, does_index_exist, hh, he]
  constructor
  · rw [hred]
  · rw [hred]
    intro e hmem
    simp at hmem
    rcases hmem with rfl | rfl <;> simp

/-- Witness for C6 at a concrete healthy client reporting PRESENT. -/
theorem create_present_is_noop_witness :
    presentIndexClient.existsResult = .ok true ∧
    (create_index presentIndexClient "app" "kb" []).2 = .ok () :=
  ⟨rfl, (create_present_is_noop presentIndexClient "app" "kb" [] rfl rfl).1⟩

/-! ## Claim C7: delete on an absent index -/

/-- C7: For every delete call where the existence check reports the
index ABSENT, the operation raises the "does not exist" ValueError — an
error distinct from KnowledgeBaseConnectionError and KnowledgeBaseError
— and issues no deletion call against the engine. -/
theorem delete_absent_raises_domain_error (c : EsClient) (ns idx : String)
    (hh : c.healthResult = .ok ()) (he : c.existsResult = .ok false) :
    (delete_index c ns idx).2 =
      .error (.valueError (indexMissingMessage ns idx)) ∧
    (∀ hs, (delete_index c ns idx).2 ≠ .error (.kbConnectionError hs)) ∧
    (∀ dt, (delete_index c ns idx).2 ≠ .error (.kbError dt)) ∧
    ∀ e ∈ (delete_index c ns idx).1, ∀ n, e ≠ EsEffect.deleteIdx n := by
  have hred : delete_index c ns idx =
      ([.healthCheck, .existsQuery (get_scoped_index_name ns idx)],
        .error (.valueError (indexMissingMessage ns idx))) := by
    simp [delete_index, does_index_exist, hh, he]
  refine ⟨by rw [hred], ?_, ?_, ?_⟩
  · intro hs
    rw [hred]
    simp
  · intro dt
    rw [hred]
    simp
  · rw [hred]
    intro e hmem
    simp at hmem
    rcases hmem with rfl | rfl <;> simp

/-- Witness for C7 at a concrete healthy client reporting ABSENT; the
raised message indeed says "does not exist". -/
theorem delete_absent_raises_domain_error_witness :
    absentIndexClient.existsResult = .ok false ∧
    (delete_index absentIndexClient "app" "kb").2 =
      .error (.valueError (indexMissingMessage "app" "kb")) ∧
    strContains "does not exist" (indexMissingMessage "app" "kb") = true :=
  ⟨rfl, (delete_absent_raises_domain_error absentIndexClient "app" "kb"
    rfl rfl).1, by decide⟩

/-! ## Claim C1: the load summary -/

/-- C1: For every document stream, after the full stream is exhausted
and the index refresh is issued, the load operation's observable summary
is (succeeded = number of documents reported successfully indexed,
attempted = the supplied document count); the refresh is among the
engine calls issued. -/
theorem load_summary (c : EsClient) (ns idx : String) (docsCount : Nat)
    (template : PyDict) (docType : Option String)
    (hh : c.healthResult = .ok ()) (he : c.existsResult = .ok true)
    (ht : c.bulkTerminal = none) (hr : c.refreshResult = .ok ()) :
    (load_index c ns idx docsCount template docType).2 =
      .ok { succeeded := countSuccessful c.bulkItems,
            attempted := docsCount,
            failureLogs := (c.bulkItems.filter fun i => !i.okay).map
              fun i => (i.action, doc_display_path
                (is_es_version_7 c.majorVersion).modern idx docType i.docId) } ∧
    EsEffect.refresh (get_scoped_index_name ns idx) ∈
      (load_index c ns idx docsCount template docType).1 := by
  constructor
  · simp [load_index, does_index_exist, hh, he, ht, hr,
      processBulkResults_fst, processBulkResults_snd]
  · simp [load_index, does_index_exist, hh, he, ht, hr]

/-- Witness for C1: the 3-document stream in which document 2 fails
yields succeeded = 2, attempted = 3, one failure log, and the result is
a normal return. -/
theorem load_summary_witness :
    loadOkClient.bulkItems.length = 3 ∧
    (load_index loadOkClient "app" "kb" 3 [] none).2 =
      .ok { succeeded := 2, attempted := 3,
            failureLogs := [("index", "/kb/2")] } := by
  refine ⟨rfl, ?_⟩
  have h := load_summary loadOkClient "app" "kb" 3 [] none rfl rfl rfl rfl
  rw [h.1]
  rfl

/-! ## Claim C9: per-document failures never abort the load -/

/-- C9: For every document stream, an individual document failure never
raises: when the stream yields no systemic exception the load returns
normally, logging exactly the failed documents (action and display path,
in stream order) and counting exactly the successful ones; only a
systemic failure (connection loss, transport error) aborts the load,
translated by the except clauses. -/
theorem load_tolerates_document_failures (c : EsClient) (ns idx : String)
    (docsCount : Nat) (template : PyDict) (docType : Option String)
    (hh : c.healthResult = .ok ()) (he : c.existsResult = .ok true) :
    (c.bulkTerminal = none → c.refreshResult = .ok () →
      (load_index c ns idx docsCount template docType).2 =
        .ok { succeeded := countSuccessful c.bulkItems,
              attempted := docsCount,
              failureLogs := (c.bulkItems.filter fun i => !i.okay).map
                fun i => (i.action, doc_display_path
                  (is_es_version_7 c.majorVersion).modern idx docType
                  i.docId) }) ∧
    (∀ e, c.bulkTerminal = some e →
      (load_index c ns idx docsCount template docType).2 =
        .error (translateLoadErr e c.hosts)) := by
  constructor
  · intro ht hr
    simp [load_index, does_index_exist, hh, he, ht, hr,
      processBulkResults_fst, processBulkResults_snd]
  · intro e ht
    simp [load_index, does_index_exist, hh, he, ht]

/-- Witness for C9: a stream with one failing document completes
normally with one failure logged and one success counted, while a
connection loss mid-stream aborts with the connection error. -/
theorem load_tolerates_document_failures_witness :
    mixedStreamClient.bulkTerminal = none ∧
    (load_index mixedStreamClient "app" "kb" 2 [] none).2 =
      .ok { succeeded := 1, attempted := 2,
            failureLogs := [("index", "/kb/a")] } ∧
    (load_index streamDownClient "app" "kb" 1 [] none).2 =
      .error (.kbConnectionError ["es1"]) := by
  refine ⟨rfl, ?_, ?_⟩
  · have h := load_tolerates_document_failures mixedStreamClient "app" "kb"
      2 [] none rfl rfl
    rw [h.1 rfl rfl]
    rfl
  · have h := load_tolerates_document_failures streamDownClient "app" "kb"
      1 [] none rfl rfl
    rw [h.2 .connError rfl]
    rfl

/-! ## Claim C2 (corrected): the document type submitted with bulk
batches -/

/-- C2 counterexample: a legacy-generation load invoked with the
caller-supplied document type "faq_doc" submits its bulk batch with the
module constant "document" instead — the batch carrying the caller's
label is not among the engine calls issued. -/
theorem bulk_ignores_caller_doc_type_counterexample :
    EsEffect.bulkSubmit "app$kb" (some "document") 50 ∈
      (load_index legacyLoadClient "app" "kb" 0 [] (some "faq_doc")).1 ∧
    EsEffect.bulkSubmit "app$kb" (some "faq_doc") 50 ∉
      (load_index legacyLoadClient "app" "kb" 0 [] (some "faq_doc")).1 := by
  constructor
  · decide
  · decide

/-- C2 (amended): for every load reaching the bulk phase, a
LEGACY-generation engine receives the batch with the module-level
constant document type DOC_TYPE = "document" (the load operation's
doc_type argument is used only for failure display paths), and a
MODERN-generation engine receives the batch without a document-type
field. -/
theorem bulk_doc_type_by_generation (c : EsClient) (ns idx : String)
    (docsCount : Nat) (template : PyDict) (docType : Option String)
    (hh : c.healthResult = .ok ()) (he : c.existsResult = .ok true) :
    ((is_es_version_7 c.majorVersion).modern = false →
      EsEffect.bulkSubmit (get_scoped_index_name ns idx) (some DOC_TYPE) 50 ∈
        (load_index c ns idx docsCount template docType).1) ∧
    ((is_es_version_7 c.majorVersion).modern = true →
      EsEffect.bulkSubmit (get_scoped_index_name ns idx) none 50 ∈
        (load_index c ns idx docsCount template docType).1) := by
  constructor <;> intro hm <;>
    cases ht : c.bulkTerminal <;>
    cases hr : c.refreshResult <;>
    simp [load_index, does_index_exist, hh, he, hm, ht, hr]

/-- Witness for C2 (amended): a legacy client's bulk batch carries
"document"; a modern client's carries no document type. -/
theorem bulk_doc_type_by_generation_witness :
    (is_es_version_7 legacyLoadClient.majorVersion).modern = false ∧
    EsEffect.bulkSubmit "app$kb" (some DOC_TYPE) 50 ∈
      (load_index legacyLoadClient "app" "kb" 0 [] (some "faq_doc")).1 ∧
    EsEffect.bulkSubmit "app$kb" none 50 ∈
      (load_index presentIndexClient "app" "kb" 0 [] none).1 :=
  ⟨rfl,
   (bulk_doc_type_by_generation legacyLoadClient "app" "kb" 0 []
     (some "faq_doc") rfl rfl).1 rfl,
   (bulk_doc_type_by_generation presentIndexClient "app" "kb" 0 []
     none rfl rfl).2 rfl⟩

/-! ## Claim C5: the mapping adaptation is a no-op on the target shape -/

/-- C5: Adapting for a MODERN engine is the identity on every mapping
already in flat shape (indeed on every mapping), and adapting for a
LEGACY engine is idempotent: running the adaptation again on its result
(Kleisli composition, since the adaptation can raise) changes nothing. -/
theorem adapt_noop_and_idempotent :
    (∀ m : PyDict, isFlatMapping m = true →
      resolve_es_config_for_version true m = .ok m) ∧
    (∀ m : PyDict,
      (resolve_es_config_for_version false m).bind
          (resolve_es_config_for_version false) =
        resolve_es_config_for_version false m) := by
  constructor
  · intro m _
    rfl
  · intro m
    have step : ∀ r : Except MMError PyDict,
        resolve_es_config_for_version false m = r →
        (r = .ok m ∨ (∃ e, r = .error e) ∨
          ∃ m', r = .ok m' ∧ resolve_es_config_for_version false m' = .ok m') := by
      intro r hr
      rw [resolve_es_config_for_version] at hr
      simp only [if_neg (by simp : ¬(false = true))] at hr
      cases hg : aGet m "mappings" with
      | none =>
        rw [hg] at hr
        simp [pyContainsKey, aPop_eq_none m "mappings" hg] at hr
        exact Or.inr (Or.inl ⟨.keyError "mappings", hr.symm⟩)
      | some v =>
        rw [hg] at hr
        cases v with
        | num n =>
          simp [pyContainsKey] at hr
          exact Or.inr (Or.inl ⟨.typeError, hr.symm⟩)
        | str t =>
          cases hc : strContains DOC_TYPE t with
          | true =>
            simp [pyContainsKey, hc] at hr
            exact Or.inl hr.symm
          | false =>
            obtain ⟨rest, hrest⟩ := aPop_eq_some m "mappings" _ hg
            simp [pyContainsKey, hc, hrest] at hr
            refine Or.inr (Or.inr ⟨_, hr.symm, ?_⟩)
            rw [resolve_es_config_for_version]
            simp [aGet_aSet_self, pyContainsKey, DOC_TYPE]
        | dict d =>
          cases hc : d.any fun p => decide (p.1 = DOC_TYPE) with
          | true =>
            simp [pyContainsKey, hc] at hr
            exact Or.inl hr.symm
          | false =>
            obtain ⟨rest, hrest⟩ := aPop_eq_some m "mappings" _ hg
            simp [pyContainsKey, hc, hrest] at hr
            refine Or.inr (Or.inr ⟨_, hr.symm, ?_⟩)
            rw [resolve_es_config_for_version]
            simp [aGet_aSet_self, pyContainsKey, DOC_TYPE]
    rcases step _ rfl with h | ⟨e, h⟩ | ⟨m', h, h'⟩
    · rw [h, Except.bind]
      exact h.symm ▸ h
    · rw [h, Except.bind]
    · rw [h, Except.bind]
      exact h'

/-- Witness for C5: a concrete flat mapping is untouched by the MODERN
adaptation, and the LEGACY adaptation of a concrete mapping is
idempotent. -/
theorem adapt_noop_and_idempotent_witness :
    isFlatMapping [("mappings", PyVal.dict [("properties", PyVal.dict [])])]
      = true ∧
    resolve_es_config_for_version true
        [("mappings", PyVal.dict [("properties", PyVal.dict [])])] =
      .ok [("mappings", PyVal.dict [("properties", PyVal.dict [])])] ∧
    (resolve_es_config_for_version false
        [("mappings", PyVal.dict [("properties", PyVal.dict [])])]).bind
        (resolve_es_config_for_version false) =
      resolve_es_config_for_version false
        [("mappings", PyVal.dict [("properties", PyVal.dict [])])] :=
  ⟨rfl,
   adapt_noop_and_idempotent.1
     [("mappings", PyVal.dict [("properties", PyVal.dict [])])] rfl,
   adapt_noop_and_idempotent.2
     [("mappings", PyVal.dict [("properties", PyVal.dict [])])]⟩

/-! ## Claim C10: in-place mutation of the shared global template -/

/-- C10: The mapping adaptation mutates its argument in place and
returns the very same object (the same store address, for every input on
which it succeeds); consequently, creating an index against a
LEGACY-generation engine rewrites the module-global default template
object in the store: afterwards its `mappings` entry refers to the fresh
nesting dict holding the old mappings dict under DOC_TYPE, and the dict
observed at the global's address is no longer the original one. -/
theorem adapt_in_place_rewrites_global_template :
    (∀ (s : Store) (cfg : Nat) (modern : Bool) (out : Store × Nat),
      resolve_es_config_for_version_heap s cfg modern = .ok out →
        out.2 = cfg) ∧
    (∀ (s : Store) (t m : Nat) (rest : HDict),
      t < s.length → m < s.length →
      aPop (fetch s t) "mappings" = some (.ref m, rest) →
      ((fetch s m).any fun p => decide (p.1 = DOC_TYPE)) = false →
      create_index_heap s t false false =
        .ok (resolvedTemplateStore s t m rest) ∧
      aGet (fetch (resolvedTemplateStore s t m rest) t) "mappings" =
        some (.ref s.length) ∧
      fetch (resolvedTemplateStore s t m rest) s.length =
        [(DOC_TYPE, .ref m)] ∧
      fetch (resolvedTemplateStore s t m rest) t ≠ fetch s t) := by
  constructor
  · intro s cfg modern out hout
    rw [resolve_es_config_for_version_heap] at hout
    by_cases hm : modern
    · simp [hm] at hout
      rw [← hout]
    · simp [hm] at hout
      rcases h1 : aGet (fetch s cfg) "mappings" with _ | v
      · rw [h1] at hout
        simp at hout
        rcases h2 : aPop (fetch s cfg) "mappings" with _ | pr
        · rw [h2] at hout; simp at hout
        · rw [h2] at hout
          simp at hout
          rw [← hout]
      · rw [h1] at hout
        cases v with
        | ref a =>
          cases h2 : (fetch s a).any fun p => decide (p.1 = DOC_TYPE) with
          | true =>
            simp [h2] at hout
            rw [← hout]
          | false =>
            simp [h2] at hout
            rcases h3 : aPop (fetch s cfg) "mappings" with _ | pr
            · rw [h3] at hout; simp at hout
            · rw [h3] at hout
              simp at hout
              rw [← hout]
        | str txt =>
          cases h2 : strContains DOC_TYPE txt with
          | true =>
            simp [h2] at hout
            rw [← hout]
          | false =>
            simp [h2] at hout
            rcases h3 : aPop (fetch s cfg) "mappings" with _ | pr
            · rw [h3] at hout; simp at hout
            · rw [h3] at hout
              simp at hout
              rw [← hout]
        | num n => simp at hout
  · intro s t m rest ht hm hpop hany
    have hget : aGet (fetch s t) "mappings" = some (.ref m) :=
      aGet_of_aPop _ _ _ _ hpop
    have hlen1 : (updateAt s t rest).length = s.length := updateAt_length s t rest
    have htlt : t < (updateAt s t rest ++ [[(DOC_TYPE, HVal.ref m)]]).length := by
      simp [hlen1]
      omega
    have hfetch2 : fetch (updateAt s t rest ++ [[(DOC_TYPE, HVal.ref m)]]) t
        = rest := by
      rw [fetch_append_lt _ _ t (by rw [hlen1]; exact ht)]
      exact fetch_updateAt_self s t rest ht
    have hmain : create_index_heap s t false false =
        .ok (resolvedTemplateStore s t m rest) := by
      rw [create_index_heap]
      simp only [if_neg (by simp : ¬(false = true))]
      rw [resolve_es_config_for_version_heap]
      simp only [if_neg (by simp : ¬(false = true))]
      rw [hget]
      simp only [hany, hpop]
      rw [resolvedTemplateStore]
      rw [hfetch2, hlen1]
    have hfetchT : fetch (resolvedTemplateStore s t m rest) t =
        aSet rest "mappings" (HVal.ref s.length) := by
      rw [resolvedTemplateStore]
      exact fetch_updateAt_self _ _ _ htlt
    have hgetT : aGet (fetch (resolvedTemplateStore s t m rest) t) "mappings"
        = some (.ref s.length) := by
      rw [hfetchT]
      exact aGet_aSet_self _ _ _
    refine ⟨hmain, hgetT, ?_, ?_⟩
    · rw [resolvedTemplateStore]
      rw [fetch_updateAt_ne _ _ _ _ (by omega)]
      have : fetch (updateAt s t rest ++ [[(DOC_TYPE, HVal.ref m)]])
          (updateAt s t rest).length = [(DOC_TYPE, HVal.ref m)] :=
        fetch_append_self _ _
      rw [hlen1] at this
      exact this
    · intro heq
      rw [heq, hget] at hgetT
      have : m = s.length := by
        injection hgetT with h1
        injection h1
      omega

/-- Witness for C10: a concrete two-object store whose template dict at
address 0 refers to a mappings dict lacking the document type: the
legacy create run rewrites the global template in place. -/
theorem adapt_in_place_rewrites_global_template_witness :
    ((templateStore, 0).2 = 0) ∧
    create_index_heap templateStore 0 false false =
      .ok (resolvedTemplateStore templateStore 0 1 []) ∧
    fetch (resolvedTemplateStore templateStore 0 1 []) 0 ≠
      fetch templateStore 0 :=
  ⟨adapt_in_place_rewrites_global_template.1 templateStore 0 true
     (templateStore, 0) rfl,
   (adapt_in_place_rewrites_global_template.2 templateStore 0 1 []
     (by decide) (by decide) (by decide) (by decide)).1,
   (adapt_in_place_rewrites_global_template.2 templateStore 0 1 []
     (by decide) (by decide) (by decide) (by decide)).2.2.2⟩

/-! ## Claim C3: merging embedding properties into a mapping -/

/-- What `create_index_mapping` does when the base mapping lacks the
`mappings` key: the chained defaults allocate a fresh properties dict at
address `s.length + 1`, the loop fills it, the base dict gains
`mappings` as a self-reference, and the assignment through that
self-reference lands `properties` on the base dict itself. -/
theorem create_index_mapping_absent (s : Store) (base : Nat)
    (l : List (String × Nat)) (hb : base < s.length)
    (hn : aGet (fetch s base) "mappings" = none)
    (hnd : (l.map Prod.fst).Nodup) :
    create_index_mapping s base l = .ok (cimAbsentStore s base l, base) ∧
    aGet (fetch (cimAbsentStore s base l) base) "mappings" =
      some (.ref base) ∧
    aGet (fetch (cimAbsentStore s base l) base) "properties" =
      some (.ref (s.length + 1)) ∧
    (∀ f d, (f, d) ∈ l →
      ∃ a, aGet (fetch (cimAbsentStore s base l) (s.length + 1)) f =
            some (.ref a) ∧
          fetch (cimAbsentStore s base l) a = embDictFor d) ∧
    (∀ f, f ∉ l.map Prod.fst →
      aGet (fetch (cimAbsentStore s base l) (s.length + 1)) f = none) ∧
    (∀ k, k ≠ "mappings" → k ≠ "properties" →
      aGet (fetch (cimAbsentStore s base l) base) k =
        aGet (fetch s base) k) := by
  have h2len : ((s ++ [[]]) ++ ([[]] : Store)).length = s.length + 2 := by simp
  have hb2 : base < ((s ++ [[]]) ++ ([[]] : Store)).length := by omega
  have hp2 : s.length + 1 < ((s ++ [[]]) ++ ([[]] : Store)).length := by omega
  have hbp : base ≠ s.length + 1 := by omega
  have hfetch_s2_base :
      fetch ((s ++ [[]]) ++ [[]]) base = fetch s base := by
    rw [fetch_append_lt _ _ base (by simp; omega), fetch_append_lt _ _ base hb]
  have hfetch_s2_p :
      fetch ((s ++ [[]]) ++ [[]]) (s.length + 1) = [] := by
    have h := fetch_append_self (s ++ [[]]) []
    simpa using h
  have hs3len : (embStore ((s ++ [[]]) ++ [[]]) (s.length + 1) l).length =
      s.length + 2 + l.length := by
    rw [embStore_length, h2len]
  have hfetch_s3_base :
      fetch (embStore ((s ++ [[]]) ++ [[]]) (s.length + 1) l) base =
        fetch s base := by
    rw [embStore_fetch_other l _ _ base hb2 hbp, hfetch_s2_base]
  have hmapN :
      aGet (fetch (embStore ((s ++ [[]]) ++ [[]]) (s.length + 1) l) base)
        "mappings" = none := by
    rw [hfetch_s3_base]; exact hn
  have hb3 : base <
      (embStore ((s ++ [[]]) ++ [[]]) (s.length + 1) l).length := by
    omega
  have hfetch_s4_base :
      fetch (updateAt (embStore ((s ++ [[]]) ++ [[]]) (s.length + 1) l) base
          (aSet (fetch (embStore ((s ++ [[]]) ++ [[]]) (s.length + 1) l) base)
            "mappings" (.ref base))) base =
        aSet (fetch (embStore ((s ++ [[]]) ++ [[]]) (s.length + 1) l) base)
          "mappings" (.ref base) :=
    fetch_updateAt_self _ _ _ hb3
  have hmapS :
      aGet (fetch (updateAt (embStore ((s ++ [[]]) ++ [[]]) (s.length + 1) l)
          base (aSet (fetch (embStore ((s ++ [[]]) ++ [[]]) (s.length + 1) l)
            base) "mappings" (.ref base))) base) "mappings" =
        some (.ref base) := by
    rw [hfetch_s4_base]; exact aGet_aSet_self _ _ _
  have hexec : create_index_mapping s base l =
      .ok (cimAbsentStore s base l, base) := by
    rw [create_index_mapping, cimAbsentStore]
    simp only [hn, insertEmbeddings_ref, hmapN, Option.isSome_none,
      Bool.false_eq_true, if_false, hmapS]
  have hb4 : base <
      (updateAt (embStore ((s ++ [[]]) ++ [[]]) (s.length + 1) l) base
        (aSet (fetch (embStore ((s ++ [[]]) ++ [[]]) (s.length + 1) l) base)
          "mappings" (.ref base))).length := by
    rw [updateAt_length]; omega
  have hfetch_s5_base :
      fetch (cimAbsentStore s base l) base =
        aSet (aSet (fetch s base) "mappings" (.ref base)) "properties"
          (.ref (s.length + 1)) := by
    rw [cimAbsentStore]
    rw [fetch_updateAt_self _ _ _ hb4, hfetch_s4_base, hfetch_s3_base]
  have hfetch_s5_p :
      fetch (cimAbsentStore s base l) (s.length + 1) =
        fetch (embStore ((s ++ [[]]) ++ [[]]) (s.length + 1) l)
          (s.length + 1) := by
    rw [cimAbsentStore]
    rw [fetch_updateAt_ne _ _ _ _ hbp, fetch_updateAt_ne _ _ _ _ hbp]
  refine ⟨hexec, ?_, ?_, ?_, ?_, ?_⟩
  · rw [hfetch_s5_base]
    rw [aGet_aSet_ne _ _ _ _ (by decide : ("mappings" : String) ≠ "properties")]
    exact aGet_aSet_self _ _ _
  · rw [hfetch_s5_base]
    exact aGet_aSet_self _ _ _
  · intro f d hmem
    obtain ⟨a, ha1, ha2, ha3⟩ := embStore_get_mem l _ _ f d hp2 hnd hmem
    have hba : base ≠ a := by omega
    refine ⟨a, ?_, ?_⟩
    · rw [hfetch_s5_p]; exact ha2
    · rw [cimAbsentStore]
      rw [fetch_updateAt_ne _ _ _ _ hba, fetch_updateAt_ne _ _ _ _ hba]
      exact ha3
  · intro f hf
    rw [hfetch_s5_p]
    rw [embStore_get_other l _ _ f hp2 hf, hfetch_s2_p]
    rfl
  · intro k hk1 hk2
    rw [hfetch_s5_base]
    rw [aGet_aSet_ne _ _ _ _ hk2, aGet_aSet_ne _ _ _ _ hk1]

/-- What `create_index_mapping` does when the base mapping owns a
`mappings` dict that already owns a `properties` dict: the embedding
entries are inserted into that properties object in place, everything
else (the base dict, the mappings dict, every other stored object) is
untouched, and the final re-assignment of the unchanged properties
reference is a no-op. -/
theorem create_index_mapping_present (s : Store) (base m p : Nat)
    (l : List (String × Nat)) (hb : base < s.length) (hm : m < s.length)
    (hp : p < s.length) (hbp : base ≠ p) (hmp : m ≠ p)
    (hmap : aGet (fetch s base) "mappings" = some (.ref m))
    (hprops : aGet (fetch s m) "properties" = some (.ref p))
    (hnd : (l.map Prod.fst).Nodup) :
    create_index_mapping s base l = .ok (embStore s p l, base) ∧
    (∀ a, a < s.length → a ≠ p →
      fetch (embStore s p l) a = fetch s a) ∧
    (∀ f d, (f, d) ∈ l →
      ∃ a, aGet (fetch (embStore s p l) p) f = some (.ref a) ∧
          fetch (embStore s p l) a = embDictFor d) ∧
    (∀ f, f ∉ l.map Prod.fst →
      aGet (fetch (embStore s p l) p) f = aGet (fetch s p) f) := by
  have hfetch_s3_base : fetch (embStore s p l) base = fetch s base :=
    embStore_fetch_other l s p base hb hbp
  have hfetch_s3_m : fetch (embStore s p l) m = fetch s m :=
    embStore_fetch_other l s p m hm hmp
  have hmap3 : aGet (fetch (embStore s p l) base) "mappings" =
      some (.ref m) := by
    rw [hfetch_s3_base]; exact hmap
  have hset_noop : aSet (fetch (embStore s p l) m) "properties" (.ref p) =
      fetch (embStore s p l) m := by
    rw [hfetch_s3_m]
    exact aSet_self_of_aGet _ _ _ hprops
  have hexec : create_index_mapping s base l = .ok (embStore s p l, base) := by
    rw [create_index_mapping]
    simp only [hmap, hprops, insertEmbeddings_ref, hmap3, Option.isSome_some,
      if_true, hset_noop, updateAt_eq_self]
  refine ⟨hexec, ?_, ?_, ?_⟩
  · intro a ha hap
    exact embStore_fetch_other l s p a ha hap
  · intro f d hmem
    obtain ⟨a, _, ha2, ha3⟩ := embStore_get_mem l s p f d hp hnd hmem
    exact ⟨a, ha2, ha3⟩
  · intro f hf
    exact embStore_get_other l s p f hp hf

/-- What `create_index_mapping` does when the base mapping owns a
`mappings` dict lacking `properties`: a fresh properties dict is
allocated at address `s.length`, filled by the loop, and hung under the
mappings dict, whose other keys are untouched; the base dict itself is
untouched. -/
theorem create_index_mapping_no_props (s : Store) (base m : Nat)
    (l : List (String × Nat)) (hb : base < s.length) (hm : m < s.length)
    (hbm : base ≠ m)
    (hmap : aGet (fetch s base) "mappings" = some (.ref m))
    (hprops : aGet (fetch s m) "properties" = none)
    (hnd : (l.map Prod.fst).Nodup) :
    create_index_mapping s base l = .ok (cimNoPropsStore s m l, base) ∧
    aGet (fetch (cimNoPropsStore s m l) m) "properties" =
      some (.ref s.length) ∧
    (∀ k, k ≠ "properties" →
      aGet (fetch (cimNoPropsStore s m l) m) k = aGet (fetch s m) k) ∧
    (∀ f d, (f, d) ∈ l →
      ∃ a, aGet (fetch (cimNoPropsStore s m l) s.length) f =
            some (.ref a) ∧
          fetch (cimNoPropsStore s m l) a = embDictFor d) ∧
    (∀ f, f ∉ l.map Prod.fst →
      aGet (fetch (cimNoPropsStore s m l) s.length) f = none) ∧
    fetch (cimNoPropsStore s m l) base = fetch s base := by
  have h2len : (s ++ ([[]] : Store)).length = s.length + 1 := by simp
  have hb2 : base < (s ++ ([[]] : Store)).length := by omega
  have hm2 : m < (s ++ ([[]] : Store)).length := by omega
  have hp2 : s.length < (s ++ ([[]] : Store)).length := by omega
  have hbp : base ≠ s.length := by omega
  have hmp : m ≠ s.length := by omega
  have hfetch_s2_base : fetch (s ++ [[]]) base = fetch s base :=
    fetch_append_lt s _ base hb
  have hfetch_s2_m : fetch (s ++ [[]]) m = fetch s m :=
    fetch_append_lt s _ m hm
  have hfetch_s2_p : fetch (s ++ [[]]) s.length = [] := fetch_append_self s []
  have hfetch_s3_base : fetch (embStore (s ++ [[]]) s.length l) base =
      fetch s base := by
    rw [embStore_fetch_other l _ _ base hb2 hbp, hfetch_s2_base]
  have hfetch_s3_m : fetch (embStore (s ++ [[]]) s.length l) m =
      fetch s m := by
    rw [embStore_fetch_other l _ _ m hm2 hmp, hfetch_s2_m]
  have hmap3 : aGet (fetch (embStore (s ++ [[]]) s.length l) base)
      "mappings" = some (.ref m) := by
    rw [hfetch_s3_base]; exact hmap
  have hm3 : m < (embStore (s ++ [[]]) s.length l).length := by
    rw [embStore_length]; omega
  have hfetch_s4_m :
      fetch (cimNoPropsStore s m l) m =
        aSet (fetch s m) "properties" (.ref s.length) := by
    rw [cimNoPropsStore]
    rw [fetch_updateAt_self _ _ _ hm3, hfetch_s3_m]
  have hexec : create_index_mapping s base l =
      .ok (cimNoPropsStore s m l, base) := by
    rw [create_index_mapping, cimNoPropsStore]
    simp only [hmap, hprops, insertEmbeddings_ref, hmap3, Option.isSome_some,
      if_true]
  refine ⟨hexec, ?_, ?_, ?_, ?_, ?_⟩
  · rw [hfetch_s4_m]
    exact aGet_aSet_self _ _ _
  · intro k hk
    rw [hfetch_s4_m]
    exact aGet_aSet_ne _ _ _ _ hk
  · intro f d hmem
    obtain ⟨a, ha1, ha2, ha3⟩ := embStore_get_mem l _ _ f d hp2 hnd hmem
    have hma : m ≠ a := by rw [h2len] at ha1; omega
    refine ⟨a, ?_, ?_⟩
    · rw [cimNoPropsStore]
      rw [fetch_updateAt_ne _ _ _ _ hmp]
      exact ha2
    · rw [cimNoPropsStore]
      rw [fetch_updateAt_ne _ _ _ _ hma]
      exact ha3
  · intro f hf
    rw [cimNoPropsStore]
    rw [fetch_updateAt_ne _ _ _ _ hmp]
    rw [embStore_get_other l _ _ f hp2 hf, hfetch_s2_p]
    rfl
  · rw [cimNoPropsStore]
    rw [fetch_updateAt_ne _ _ _ _ (fun h => hbm h.symm)]
    exact hfetch_s3_base

/-- C3 counterexample: a base mapping with no `mappings` key but with a
pre-existing top-level `properties` key.  After the merge, that key's
value has been replaced by the new properties object (and `mappings`
refers to the mapping itself), so not all other keys of the mapping are
left untouched. -/
theorem merge_embeddings_counterexample :
    aGet (fetch clobberBase 0) "properties" = some (HVal.str "X") ∧
    create_index_mapping clobberBase 0 [("vec", 3)] =
      .ok ([[("properties", HVal.ref 2), ("mappings", HVal.ref 0)], [],
            [("vec", HVal.ref 3)],
            [("type", HVal.str "dense_vector"), ("dims", HVal.num 3)]], 0) ∧
    aGet (fetch [[("properties", HVal.ref 2), ("mappings", HVal.ref 0)], [],
            [("vec", HVal.ref 3)],
            [("type", HVal.str "dense_vector"), ("dims", HVal.num 3)]] 0)
        "properties" = some (HVal.ref 2) ∧
    some (HVal.ref 2) ≠ some (HVal.str "X") :=
  ⟨rfl, rfl, rfl, by decide⟩

/-- C3 (amended): each embedding entry is inserted into the properties
map as a dense_vector entry of the given dimensionality, additively, and
the properties map is created if absent.  When the mapping already has a
`mappings` dict, the base dict and every other stored object are left
untouched.  When the `mappings` key is absent, it is created as a
reference to the mapping object itself (not a fresh wrapper), and the
mapping's own top-level `properties` key is overwritten with the new
properties map; its other keys are untouched. -/
theorem merge_embeddings_amended :
    (∀ (s : Store) (base : Nat) (l : List (String × Nat)),
      base < s.length →
      aGet (fetch s base) "mappings" = none →
      (l.map Prod.fst).Nodup →
      create_index_mapping s base l = .ok (cimAbsentStore s base l, base) ∧
      aGet (fetch (cimAbsentStore s base l) base) "mappings" =
        some (.ref base) ∧
      aGet (fetch (cimAbsentStore s base l) base) "properties" =
        some (.ref (s.length + 1)) ∧
      (∀ f d, (f, d) ∈ l →
        ∃ a, aGet (fetch (cimAbsentStore s base l) (s.length + 1)) f =
              some (.ref a) ∧
            fetch (cimAbsentStore s base l) a = embDictFor d) ∧
      (∀ f, f ∉ l.map Prod.fst →
        aGet (fetch (cimAbsentStore s base l) (s.length + 1)) f = none) ∧
      (∀ k, k ≠ "mappings" → k ≠ "properties" →
        aGet (fetch (cimAbsentStore s base l) base) k =
          aGet (fetch s base) k)) ∧
    (∀ (s : Store) (base m p : Nat) (l : List (String × Nat)),
      base < s.length → m < s.length → p < s.length → base ≠ p → m ≠ p →
      aGet (fetch s base) "mappings" = some (.ref m) →
      aGet (fetch s m) "properties" = some (.ref p) →
      (l.map Prod.fst).Nodup →
      create_index_mapping s base l = .ok (embStore s p l, base) ∧
      (∀ a, a < s.length → a ≠ p →
        fetch (embStore s p l) a = fetch s a) ∧
      (∀ f d, (f, d) ∈ l →
        ∃ a, aGet (fetch (embStore s p l) p) f = some (.ref a) ∧
            fetch (embStore s p l) a = embDictFor d) ∧
      (∀ f, f ∉ l.map Prod.fst →
        aGet (fetch (embStore s p l) p) f = aGet (fetch s p) f)) ∧
    (∀ (s : Store) (base m : Nat) (l : List (String × Nat)),
      base < s.length → m < s.length → base ≠ m →
      aGet (fetch s base) "mappings" = some (.ref m) →
      aGet (fetch s m) "properties" = none →
      (l.map Prod.fst).Nodup →
      create_index_mapping s base l = .ok (cimNoPropsStore s m l, base) ∧
      aGet (fetch (cimNoPropsStore s m l) m) "properties" =
        some (.ref s.length) ∧
      (∀ k, k ≠ "properties" →
        aGet (fetch (cimNoPropsStore s m l) m) k = aGet (fetch s m) k) ∧
      (∀ f d, (f, d) ∈ l →
        ∃ a, aGet (fetch (cimNoPropsStore s m l) s.length) f =
              some (.ref a) ∧
            fetch (cimNoPropsStore s m l) a = embDictFor d) ∧
      (∀ f, f ∉ l.map Prod.fst →
        aGet (fetch (cimNoPropsStore s m l) s.length) f = none) ∧
      fetch (cimNoPropsStore s m l) base = fetch s base) :=
  ⟨create_index_mapping_absent, create_index_mapping_present,
   create_index_mapping_no_props⟩

/-- Witness for C3 (amended) at the concrete clobbering input: the run
succeeds, returns the same object, and makes `mappings` refer to the
mapping itself. -/
theorem merge_embeddings_amended_witness :
    0 < clobberBase.length ∧
    create_index_mapping clobberBase 0 [("vec", 3)] =
      .ok (cimAbsentStore clobberBase 0 [("vec", 3)], 0) ∧
    aGet (fetch (cimAbsentStore clobberBase 0 [("vec", 3)]) 0) "mappings" =
      some (.ref 0) :=
  ⟨by decide,
   (merge_embeddings_amended.1 clobberBase 0 [("vec", 3)]
     (by decide) rfl (by decide)).1,
   (merge_embeddings_amended.1 clobberBase 0 [("vec", 3)]
     (by decide) rfl (by decide)).2.1⟩

end MindmeldES
